import Mathlib

/-!
# Verification of `calc_particle_mass.py`

A shallow embedding of the particle-mass-table generator.  The script reads
all records of the external PDG catalog, filters out quarks and nuclei/ions,
groups records by the absolute value of the PDG identifier, resolves one
representative signed identifier per group, resolves a mass (forced to zero
for neutrinos and the photon, otherwise read from the catalog), converts
MeV/c^2 to kilograms, and writes one formatted line per surviving group.

Numeric model: every float flowing through the script originates from a
decimal literal (catalog mass values, the constant `1.78266192e-30`), and the
only arithmetic performed on masses is one multiplication by that decimal
constant.  We therefore represent the values exactly as scaled decimals
`m * 10 ^ e` (`Dec`), on which that multiplication is exact; `Dec.toRat`
recovers the rational value.  `NaN` and a missing mass are explicit
constructors of the mass field (`MassVal`), since the script distinguishes
them from numeric values (`m is None or math.isnan(m)`).
-/

/-- Exact scaled-decimal number `m * 10 ^ e`.  Models the Python float values
flowing through the script (catalog masses and the unit-conversion constant
are decimal literals, and the only arithmetic applied to them is one
multiplication, which is exact here). -/
structure Dec where
  m : Int
  e : Int
deriving DecidableEq, Repr

/-- Multiplication of scaled decimals: `(m1*10^e1) * (m2*10^e2)`. -/
def Dec.mul (a b : Dec) : Dec := ⟨a.m * b.m, a.e + b.e⟩

/-- The float `0.0`. -/
def Dec.zero : Dec := ⟨0, 0⟩

/-- The exact rational value of a scaled decimal. -/
def Dec.toRat (d : Dec) : ℚ := (d.m : ℚ) * (10 : ℚ) ^ d.e

/-- Source line 17: `MEV_TO_KG = 1.78266192e-30` (1 MeV/c^2 in kilograms). -/
def MEV_TO_KG : Dec := ⟨178266192, -38⟩

/-- The catalog's mass field: absent (`None`), a NaN float, or a numeric
value.  The script treats `absent` and `nan` identically (`ValueError`). -/
inductive MassVal where
  | absent
  | nan
  | val (d : Dec)
deriving DecidableEq, Repr

/-- One external catalog record: signed PDG identifier, nullable mass in
MeV/c^2, display name (`none` models a missing name). -/
structure PRecord where
  pdgid : Int
  mass : MassVal
  name : Option String
deriving DecidableEq, Repr

/-- The external particle catalog.  `records` is the enumeration order of
`Particle.findall()`. -/
structure Catalog where
  records : List PRecord

/-- `Particle.from_pdgid(i)`: look the identifier up in the catalog; `none`
models the raised `ParticleNotFound`. -/
def Catalog.from_pdgid (c : Catalog) (i : Int) : Option PRecord :=
  c.records.find? (fun p => p.pdgid == i)

/-- Source lines 29-31: quark PDG identifiers `±1..±6`. -/
def quarkIds : List Nat := [1, 2, 3, 4, 5, 6]

/-- `is_quark`: the record's absolute identifier is in `{1,..,6}`. -/
def is_quark (p : PRecord) : Bool := quarkIds.contains p.pdgid.natAbs

/-- `is_nucleus_or_ion`: absolute identifier at least 1e9.  (The Python
function returns `True` or `None`; `None` is falsy, so it is this test.) -/
def is_nucleus_or_ion (p : PRecord) : Bool := p.pdgid.natAbs ≥ 1000000000

/-- A record survives both `continue` filters of the grouping loop. -/
def survives (p : PRecord) : Bool := !is_quark p && !is_nucleus_or_ion p

/-- Source line 42: identifiers whose mass is forced to zero (three neutrino
flavours and the photon). -/
def forcedZeroIds : List Nat := [12, 14, 16, 22]

/-- Failures inside `forced_mass_mev`: `valueError` is the
`ValueError("no mass")` the rows loop catches; `notFound` is
`Particle.from_pdgid` raising, which the rows loop would not catch. -/
inductive Err where
  | valueError
  | notFound
deriving DecidableEq, Repr

/-- Source lines 40-48, `forced_mass_mev`: mass 0 for the forced-zero
identifiers, otherwise the catalog mass of `pdgid`; `ValueError` when that
mass is absent or NaN. -/
def forced_mass_mev (c : Catalog) (pdgid : Int) : Except Err Dec :=
  if pdgid.natAbs ∈ forcedZeroIds then .ok Dec.zero
  else
    match c.from_pdgid pdgid with
    | none => .error .notFound
    | some p =>
      match p.mass with
      | .val d => .ok d
      | _ => .error .valueError

/-- Source lines 52-66, the grouping loop: walk the catalog records, skip
quarks and nuclei/ions, and on the first record of each absolute identifier
`aid` store `aid` itself when `Particle.from_pdgid(aid)` succeeds, otherwise
the signed identifier just seen.  The dictionary is modelled as an
association list in insertion order; the `aid not in absid_to_pdgid` test is
the `find?` guard. -/
def buildGroupsAux (c : Catalog) : List PRecord → List (Nat × Int) → List (Nat × Int)
  | [], acc => acc
  | p :: rest, acc =>
    if is_quark p then buildGroupsAux c rest acc
    else if is_nucleus_or_ion p then buildGroupsAux c rest acc
    else if (acc.find? (fun g => g.1 == p.pdgid.natAbs)).isSome then buildGroupsAux c rest acc
    else
      match c.from_pdgid (p.pdgid.natAbs : Int) with
      | some _ => buildGroupsAux c rest (acc ++ [(p.pdgid.natAbs, (p.pdgid.natAbs : Int))])
      | none => buildGroupsAux c rest (acc ++ [(p.pdgid.natAbs, p.pdgid)])

/-- The finished `absid_to_pdgid` dictionary. -/
def absid_to_pdgid (c : Catalog) : List (Nat × Int) := buildGroupsAux c c.records []

/-- Dictionary lookup `absid_to_pdgid[a]`. -/
def lookupGroup (c : Catalog) (a : Nat) : Option Int :=
  ((absid_to_pdgid c).find? (fun g => g.1 == a)).map (fun g => g.2)

/-- Comparison of groups by their absolute-identifier key. -/
abbrev keyLe (g h : Nat × Int) : Prop := g.1 ≤ h.1

instance : IsTotal (Nat × Int) keyLe := ⟨fun a b => Nat.le_total a.1 b.1⟩

instance : IsTrans (Nat × Int) keyLe := ⟨fun _ _ _ => Nat.le_trans⟩

/-- Source line 70, `for aid in sorted(absid_to_pdgid.keys())`: the group
entries in ascending key order (keys are distinct, so sorting the
association list is the same as iterating the sorted key list). -/
def sortedGroups (c : Catalog) : List (Nat × Int) :=
  List.insertionSort keyLe (absid_to_pdgid c)

/-- One output row, source line 79: `(pdgid, mass_kg, name, mass_mev)`. -/
structure Row where
  pdgid : Int
  m_kg : Dec
  name : String
  m_mev : Dec
deriving DecidableEq, Repr

/-- Source line 78: `Particle.from_pdgid(pdgid).name or f"PDG{pdgid}"`.
A missing name (and Python's other falsy case, the empty string) yields the
synthesized `PDG<id>` name. -/
def rowName (pdgid : Int) (p : PRecord) : String :=
  match p.name with
  | some n => if n = "" then "PDG" ++ toString pdgid else n
  | none => "PDG" ++ toString pdgid

/-- Source lines 69-79, the rows loop: for each group in ascending key order
resolve the mass (a `ValueError` skips the group), convert to kilograms, look
the name up, and append the row.  A `notFound` from either catalog lookup is
not caught by the `except ValueError` and aborts the computation. -/
def rowsAux (c : Catalog) : List (Nat × Int) → List Row → Except Err (List Row)
  | [], acc => .ok acc
  | (_, pdgid) :: rest, acc =>
    match forced_mass_mev c pdgid with
    | .error .valueError => rowsAux c rest acc
    | .error .notFound => .error .notFound
    | .ok m_mev =>
      match c.from_pdgid pdgid with
      | none => .error .notFound
      | some p =>
        rowsAux c rest (acc ++ [⟨pdgid, m_mev.mul MEV_TO_KG, rowName pdgid p, m_mev⟩])

/-- The full `rows` list of the script. -/
def mkRows (c : Catalog) : Except Err (List Row) := rowsAux c (sortedGroups c) []

/-- Python's `f"{s:>w}"`: right-justify in a `w`-character field. -/
def padLeft (s : String) (w : Nat) : String :=
  String.mk (List.replicate (w - s.length) ' ') ++ s

/-- Python's `f"{s:<w}"`: left-justify in a `w`-character field. -/
def padRight (s : String) (w : Nat) : String :=
  s ++ String.mk (List.replicate (w - s.length) ' ')

/-- Number of decimal digits of `n` (1 for 0). -/
def ndigits (n : Nat) : Nat := (Nat.toDigits 10 n).length

/-- Round-half-even division `n / d` for `d > 0`, the rounding Python's
float formatting uses. -/
def rdiv (n d : Nat) : Nat :=
  let q := n / d
  let r := n % d
  if 2 * r < d then q
  else if d < 2 * r then q + 1
  else if q % 2 == 0 then q else q + 1

/-- Round a positive integer `m` to exactly `k` significant digits.
Returns `(D, s)` with `D` a `k`-digit number and `D * 10 ^ s` the rounded
value of `m`. -/
def sigRound (m k : Nat) : Nat × Int :=
  let nd := ndigits m
  if nd ≤ k then (m * 10 ^ (k - nd), -((k : Int) - (nd : Int)))
  else
    let s := nd - k
    let D := rdiv m (10 ^ s)
    if D = 10 ^ k then (10 ^ (k - 1), (s : Int) + 1) else (D, (s : Int))

/-- Exponent suffix of Python scientific notation: sign then at least two
digits (`e-31` prints as `-31`, `e5` as `+05`). -/
def expStr (e : Int) : String :=
  (if e < 0 then "-" else "+")
    ++ (if e.natAbs < 10 then "0" ++ toString e.natAbs else toString e.natAbs)

/-- Strip trailing `'0'` characters (the `%g` trailing-zero removal). -/
def stripZeros (s : String) : String :=
  String.mk ((s.data.reverse.dropWhile (fun ch => ch == '0')).reverse)

/-- Python `f"{x:.10e}"` on the exact decimal value: sign, one leading digit,
ten fractional digits, `e`, signed two-digit-minimum exponent. -/
def fmt_e10 (d : Dec) : String :=
  if d.m = 0 then "0.0000000000e+00"
  else
    let sgn := if d.m < 0 then "-" else ""
    let ds := sigRound d.m.natAbs 11
    let digs := toString ds.1
    let E := 10 + d.e + ds.2
    sgn ++ digs.take 1 ++ "." ++ digs.drop 1 ++ "e" ++ expStr E

/-- Python `f"{x:.6g}"` on the exact decimal value: six significant digits,
trailing zeros stripped, fixed notation for decimal exponents in `[-4, 6)`
and scientific notation otherwise. -/
def fmt_g6 (d : Dec) : String :=
  if d.m = 0 then "0"
  else
    let sgn := if d.m < 0 then "-" else ""
    let ds := sigRound d.m.natAbs 6
    let digs := toString ds.1
    let E := 5 + d.e + ds.2
    if -4 ≤ E ∧ E < 6 then
      if 0 ≤ E then
        let ip := digs.take (E.toNat + 1)
        let fp := stripZeros (digs.drop (E.toNat + 1))
        sgn ++ ip ++ (if fp = "" then "" else "." ++ fp)
      else
        sgn ++ "0." ++ String.mk (List.replicate (E.natAbs - 1) '0') ++ stripZeros digs
    else
      let fp := stripZeros (digs.drop 1)
      sgn ++ digs.take 1 ++ (if fp = "" then "" else "." ++ fp) ++ "e" ++ expStr E

/-- Source line 98: `f"{m_kg:.10e}" if m_kg != 0.0 else "0.0"`.  The float
comparison `m_kg != 0.0` is the mantissa test `d.m ≠ 0` (a scaled decimal is
the value zero exactly when its mantissa is zero). -/
def m_kg_str (d : Dec) : String :=
  if d.m ≠ 0 then fmt_e10 d else "0.0"

/-- Source line 99, one payload line:
`f"{pdgid:>6d} {m_kg_str:<18}    # {name} ({m_mev:.6g} MeV/c^2)"`. -/
def formatLine (r : Row) : String :=
  padLeft (toString r.pdgid) 6 ++ " " ++ padRight (m_kg_str r.m_kg) 18
    ++ "    # " ++ r.name ++ " (" ++ fmt_g6 r.m_mev ++ " MeV/c^2)"

/-- The `SystemExit` message of source lines 23-26. -/
def installMsg : String :=
  "This script requires 'particle' (scikit-hep). Install with:\n    pip install particle"

/-- Observable effects of one run, in order. -/
inductive Effect where
  | exitErr (msg : String)
  | mkdir (path : String)
  | writeFile (path : String) (content : String)
  | crash
deriving DecidableEq, Repr

/-- Whether an effect creates or writes a filesystem entry. -/
def Effect.touchesFilesystem : Effect → Bool
  | .mkdir _ => true
  | .writeFile _ _ => true
  | _ => false

/-- Source line 89, the fixed header comment. -/
def headerComment : String :=
  "# PDG masses [kg]; particle/antiparticle share the same value via |PDG|\n"

/-- Source lines 90-94: the optional version line, omitted when the
revision-hash lookup fails. -/
def versionComment (gitHash : Option String) : String :=
  match gitHash with
  | some h => "# Produced with crpropa-data version: " ++ h ++ "\n"
  | none => ""

/-- The whole script as an effect trace.  `particleAvailable` models whether
`from particle import Particle` succeeds (source lines 20-26; on failure the
script raises `SystemExit` before anything else runs); `dataDirExists` models
`os.path.exists("data")`; `gitHash` models the optional revision hash.
Grouping and the rows loop (lines 52-79) run before the directory is created
(lines 82-84) and the file is written (lines 87-101). -/
def runProgram (particleAvailable : Bool) (dataDirExists : Bool)
    (c : Catalog) (gitHash : Option String) : List Effect :=
  if particleAvailable then
    match mkRows c with
    | .error _ => [.crash]
    | .ok rows =>
      (if dataDirExists then [] else [.mkdir "data"])
        ++ [.writeFile "data/particle_masses.txt"
              (headerComment ++ versionComment gitHash
                ++ String.join (rows.map (fun r => formatLine r ++ "\n")))]
  else [.exitErr installMsg]

/-! ## Basic lemmas about the numeric model -/

theorem Dec.toRat_mul (a b : Dec) : (a.mul b).toRat = a.toRat * b.toRat := by
  unfold Dec.toRat Dec.mul
  push_cast
  rw [zpow_add₀ (by norm_num : (10 : ℚ) ≠ 0)]
  ring

theorem Dec.toRat_eq_zero (d : Dec) : d.toRat = 0 ↔ d.m = 0 := by
  unfold Dec.toRat
  rw [mul_eq_zero]
  constructor
  · rintro (h | h)
    · exact_mod_cast h
    · exact absurd h (zpow_ne_zero _ (by norm_num))
  · intro h
    left
    exact_mod_cast h

theorem MEV_TO_KG_toRat : MEV_TO_KG.toRat = (1.78266192e-30 : ℚ) := by
  unfold Dec.toRat MEV_TO_KG
  norm_num [zpow_neg]

/-! ## The grouping dictionary invariant -/

/-- Invariant of every `absid_to_pdgid` entry: the stored representative has
the key as its absolute value, it resolves in the catalog, and the key passed
both exclusion filters. -/
def GoodGroup (c : Catalog) (g : Nat × Int) : Prop :=
  g.2.natAbs = g.1 ∧ (c.from_pdgid g.2).isSome = true
    ∧ g.1 ∉ quarkIds ∧ g.1 < 1000000000

theorem from_pdgid_self (c : Catalog) (p : PRecord) (hp : p ∈ c.records) :
    (c.from_pdgid p.pdgid).isSome = true := by
  unfold Catalog.from_pdgid
  rw [List.find?_isSome]
  exact ⟨p, hp, by simp⟩

theorem buildGroupsAux_good (c : Catalog) (l : List PRecord) :
    ∀ acc : List (Nat × Int), (∀ p ∈ l, p ∈ c.records) →
      (∀ g ∈ acc, GoodGroup c g) →
      ∀ g ∈ buildGroupsAux c l acc, GoodGroup c g := by
  induction l with
  | nil =>
    intro acc _ hacc
    simpa [buildGroupsAux] using hacc
  | cons p rest ih =>
    intro acc hl hacc
    have hlr : ∀ q ∈ rest, q ∈ c.records := fun q hq => hl q (List.mem_cons_of_mem _ hq)
    have hpr : p ∈ c.records := hl p (List.mem_cons_self _ _)
    by_cases hq : is_quark p
    · rw [show buildGroupsAux c (p :: rest) acc = buildGroupsAux c rest acc by
        simp [buildGroupsAux, hq]]
      exact ih acc hlr hacc
    · by_cases hn : is_nucleus_or_ion p
      · rw [show buildGroupsAux c (p :: rest) acc = buildGroupsAux c rest acc by
          simp [buildGroupsAux, hq, hn]]
        exact ih acc hlr hacc
      · have hquark : p.pdgid.natAbs ∉ quarkIds := by
          simpa [is_quark, quarkIds] using hq
        have hnuc : p.pdgid.natAbs < 1000000000 := by
          have h' : ¬ (p.pdgid.natAbs ≥ 1000000000) := by
            simpa [is_nucleus_or_ion] using hn
          omega
        by_cases hf : (acc.find? (fun g => g.1 == p.pdgid.natAbs)).isSome
        · rw [show buildGroupsAux c (p :: rest) acc = buildGroupsAux c rest acc by
            simp [buildGroupsAux, hq, hn, hf]]
          exact ih acc hlr hacc
        · cases hcp : c.from_pdgid (p.pdgid.natAbs : Int) with
          | some q =>
            rw [show buildGroupsAux c (p :: rest) acc
                = buildGroupsAux c rest (acc ++ [(p.pdgid.natAbs, (p.pdgid.natAbs : Int))]) by
              simp only [buildGroupsAux]
              rw [if_neg hq, if_neg hn, if_neg hf, hcp]]
            refine ih _ hlr ?_
            intro g hg
            rcases List.mem_append.mp hg with hg | hg
            · exact hacc g hg
            · rw [List.mem_singleton.mp hg]
              refine ⟨Int.natAbs_ofNat _, ?_, hquark, hnuc⟩
              rw [hcp]
              rfl
          | none =>
            rw [show buildGroupsAux c (p :: rest) acc
                = buildGroupsAux c rest (acc ++ [(p.pdgid.natAbs, p.pdgid)]) by
              simp only [buildGroupsAux]
              rw [if_neg hq, if_neg hn, if_neg hf, hcp]]
            refine ih _ hlr ?_
            intro g hg
            rcases List.mem_append.mp hg with hg | hg
            · exact hacc g hg
            · rw [List.mem_singleton.mp hg]
              exact ⟨rfl, from_pdgid_self c p hpr, hquark, hnuc⟩

theorem absid_to_pdgid_good (c : Catalog) :
    ∀ g ∈ absid_to_pdgid c, GoodGroup c g :=
  buildGroupsAux_good c c.records [] (fun _ hp => hp) (fun _ hg => absurd hg (List.not_mem_nil _))

theorem sortedGroups_good (c : Catalog) :
    ∀ g ∈ sortedGroups c, GoodGroup c g := fun g hg =>
  absid_to_pdgid_good c g ((List.perm_insertionSort keyLe (absid_to_pdgid c)).mem_iff.mp hg)

/-! ## Keys of the grouping dictionary are distinct -/

theorem buildGroupsAux_keys_nodup (c : Catalog) (l : List PRecord) :
    ∀ acc : List (Nat × Int), (acc.map Prod.fst).Nodup →
      ((buildGroupsAux c l acc).map Prod.fst).Nodup := by
  induction l with
  | nil =>
    intro acc h
    simpa [buildGroupsAux] using h
  | cons p rest ih =>
    intro acc hacc
    by_cases hq : is_quark p
    · rw [show buildGroupsAux c (p :: rest) acc = buildGroupsAux c rest acc by
        simp [buildGroupsAux, hq]]
      exact ih acc hacc
    · by_cases hn : is_nucleus_or_ion p
      · rw [show buildGroupsAux c (p :: rest) acc = buildGroupsAux c rest acc by
          simp [buildGroupsAux, hq, hn]]
        exact ih acc hacc
      · by_cases hf : (acc.find? (fun g => g.1 == p.pdgid.natAbs)).isSome
        · rw [show buildGroupsAux c (p :: rest) acc = buildGroupsAux c rest acc by
            simp [buildGroupsAux, hq, hn, hf]]
          exact ih acc hacc
        · have h0 : acc.find? (fun g => g.1 == p.pdgid.natAbs) = none :=
            Option.not_isSome_iff_eq_none.mp hf
          have hnotmem : p.pdgid.natAbs ∉ acc.map Prod.fst := by
            intro hmem
            rcases List.mem_map.mp hmem with ⟨g, hg, hfst⟩
            have := List.find?_eq_none.mp h0 g hg
            simp [hfst] at this
          have hext : ∀ v : Int, ((acc ++ [(p.pdgid.natAbs, v)]).map Prod.fst).Nodup := by
            intro v
            rw [List.map_append, List.nodup_append]
            refine ⟨hacc, List.nodup_singleton _, ?_⟩
            intro x hx hx'
            simp only [List.map_cons, List.map_nil, List.mem_singleton] at hx'
            exact hnotmem (hx' ▸ hx)
          cases hcp : c.from_pdgid (p.pdgid.natAbs : Int) with
          | some q =>
            rw [show buildGroupsAux c (p :: rest) acc
                = buildGroupsAux c rest (acc ++ [(p.pdgid.natAbs, (p.pdgid.natAbs : Int))]) by
              simp only [buildGroupsAux]
              rw [if_neg hq, if_neg hn, if_neg hf, hcp]]
            exact ih _ (hext _)
          | none =>
            rw [show buildGroupsAux c (p :: rest) acc
                = buildGroupsAux c rest (acc ++ [(p.pdgid.natAbs, p.pdgid)]) by
              simp only [buildGroupsAux]
              rw [if_neg hq, if_neg hn, if_neg hf, hcp]]
            exact ih _ (hext _)

theorem absid_to_pdgid_keys_nodup (c : Catalog) :
    ((absid_to_pdgid c).map Prod.fst).Nodup :=
  buildGroupsAux_keys_nodup c c.records [] (by simp)

theorem sortedGroups_keys_nodup (c : Catalog) :
    ((sortedGroups c).map Prod.fst).Nodup :=
  (((List.perm_insertionSort keyLe (absid_to_pdgid c)).map Prod.fst).nodup_iff).mpr
    (absid_to_pdgid_keys_nodup c)

/-! ## The first surviving record of a group fixes the representative -/

theorem buildGroupsAux_find_pres (c : Catalog) (l : List PRecord) (k : Nat) (v : Nat × Int) :
    ∀ acc, acc.find? (fun g => g.1 == k) = some v →
      (buildGroupsAux c l acc).find? (fun g => g.1 == k) = some v := by
  induction l with
  | nil =>
    intro acc h
    simpa [buildGroupsAux] using h
  | cons p rest ih =>
    intro acc h
    by_cases hq : is_quark p
    · rw [show buildGroupsAux c (p :: rest) acc = buildGroupsAux c rest acc by
        simp [buildGroupsAux, hq]]
      exact ih acc h
    · by_cases hn : is_nucleus_or_ion p
      · rw [show buildGroupsAux c (p :: rest) acc = buildGroupsAux c rest acc by
          simp [buildGroupsAux, hq, hn]]
        exact ih acc h
      · by_cases hf : (acc.find? (fun g => g.1 == p.pdgid.natAbs)).isSome
        · rw [show buildGroupsAux c (p :: rest) acc = buildGroupsAux c rest acc by
            simp [buildGroupsAux, hq, hn, hf]]
          exact ih acc h
        · have hext : ∀ w : Int,
              ((acc ++ [(p.pdgid.natAbs, w)]).find? (fun g => g.1 == k)) = some v := by
            intro w
            rw [List.find?_append, h]
            rfl
          cases hcp : c.from_pdgid (p.pdgid.natAbs : Int) with
          | some q =>
            rw [show buildGroupsAux c (p :: rest) acc
                = buildGroupsAux c rest (acc ++ [(p.pdgid.natAbs, (p.pdgid.natAbs : Int))]) by
              simp only [buildGroupsAux]
              rw [if_neg hq, if_neg hn, if_neg hf, hcp]]
            exact ih _ (hext _)
          | none =>
            rw [show buildGroupsAux c (p :: rest) acc
                = buildGroupsAux c rest (acc ++ [(p.pdgid.natAbs, p.pdgid)]) by
              simp only [buildGroupsAux]
              rw [if_neg hq, if_neg hn, if_neg hf, hcp]]
            exact ih _ (hext _)

theorem buildGroupsAux_first (c : Catalog) (a : Nat) (p : PRecord) (l : List PRecord) :
    ∀ acc, (l.filter survives).find? (fun q => q.pdgid.natAbs == a) = some p →
      acc.find? (fun g => g.1 == a) = none →
      (buildGroupsAux c l acc).find? (fun g => g.1 == a)
        = some (a, if (c.from_pdgid (a : Int)).isSome then (a : Int) else p.pdgid) := by
  induction l with
  | nil =>
    intro acc hfind _
    simp at hfind
  | cons q rest ih =>
    intro acc hfind hnone
    by_cases hq : is_quark q
    · have hsurv : ¬ (survives q = true) := by simp [survives, hq]
      rw [List.filter_cons, if_neg hsurv] at hfind
      rw [show buildGroupsAux c (q :: rest) acc = buildGroupsAux c rest acc by
        simp [buildGroupsAux, hq]]
      exact ih acc hfind hnone
    · by_cases hn : is_nucleus_or_ion q
      · have hsurv : ¬ (survives q = true) := by simp [survives, hn]
        rw [List.filter_cons, if_neg hsurv] at hfind
        rw [show buildGroupsAux c (q :: rest) acc = buildGroupsAux c rest acc by
          simp [buildGroupsAux, hq, hn]]
        exact ih acc hfind hnone
      · have hsurv : survives q = true := by simp [survives, hq, hn]
        rw [List.filter_cons, if_pos hsurv, List.find?_cons] at hfind
        cases hqa : (q.pdgid.natAbs == a) with
        | true =>
          rw [hqa] at hfind
          have hpq : q = p := by
            simpa using hfind
          have ha : q.pdgid.natAbs = a := eq_of_beq hqa
          have hfa : (acc.find? (fun g => g.1 == q.pdgid.natAbs)).isSome = false := by
            rw [ha, hnone]
            rfl
          have hfa' : ¬ ((acc.find? (fun g => g.1 == q.pdgid.natAbs)).isSome = true) := by
            simp [hfa]
          rw [ha] at hfa hfa'
          cases hcp : c.from_pdgid (a : Int) with
          | some r =>
            rw [show buildGroupsAux c (q :: rest) acc
                = buildGroupsAux c rest (acc ++ [(q.pdgid.natAbs, (q.pdgid.natAbs : Int))]) by
              simp only [buildGroupsAux]
              rw [if_neg hq, if_neg hn, ha, if_neg hfa', hcp]]
            apply buildGroupsAux_find_pres
            rw [List.find?_append, hnone, ha]
            simp [hcp]
          | none =>
            rw [show buildGroupsAux c (q :: rest) acc
                = buildGroupsAux c rest (acc ++ [(q.pdgid.natAbs, q.pdgid)]) by
              simp only [buildGroupsAux]
              rw [if_neg hq, if_neg hn, ha, if_neg hfa', hcp]]
            apply buildGroupsAux_find_pres
            rw [List.find?_append, hnone, ha]
            simp [hcp, hpq]
        | false =>
          rw [hqa] at hfind
          by_cases hf : (acc.find? (fun g => g.1 == q.pdgid.natAbs)).isSome
          · rw [show buildGroupsAux c (q :: rest) acc = buildGroupsAux c rest acc by
              simp [buildGroupsAux, hq, hn, hf]]
            exact ih acc hfind hnone
          · have hext : ∀ w : Int,
                ((acc ++ [(q.pdgid.natAbs, w)]).find? (fun g => g.1 == a)) = none := by
              intro w
              rw [List.find?_append, hnone]
              simp [hqa]
            cases hcp : c.from_pdgid (q.pdgid.natAbs : Int) with
            | some r =>
              rw [show buildGroupsAux c (q :: rest) acc
                  = buildGroupsAux c rest (acc ++ [(q.pdgid.natAbs, (q.pdgid.natAbs : Int))]) by
                simp only [buildGroupsAux]
                rw [if_neg hq, if_neg hn, if_neg hf, hcp]]
              exact ih _ hfind (hext _)
            | none =>
              rw [show buildGroupsAux c (q :: rest) acc
                  = buildGroupsAux c rest (acc ++ [(q.pdgid.natAbs, q.pdgid)]) by
                simp only [buildGroupsAux]
                rw [if_neg hq, if_neg hn, if_neg hf, hcp]]
              exact ih _ hfind (hext _)

/-! ## The rows loop -/

/-- How one output row arises from its group entry `g`: the row carries the
representative identifier, the resolved mass, the converted mass, and the
catalog (or synthesized) name. -/
def RowSpec (c : Catalog) (g : Nat × Int) (r : Row) : Prop :=
  r.pdgid = g.2 ∧ forced_mass_mev c g.2 = .ok r.m_mev
    ∧ r.m_kg = r.m_mev.mul MEV_TO_KG
    ∧ ∃ p, c.from_pdgid g.2 = some p ∧ r.name = rowName g.2 p

theorem rowsAux_acc_sub (c : Catalog) (gs : List (Nat × Int)) :
    ∀ acc rows, rowsAux c gs acc = .ok rows → ∀ r ∈ acc, r ∈ rows := by
  induction gs with
  | nil =>
    intro acc rows h r hr
    simp only [rowsAux, Except.ok.injEq] at h
    rwa [← h]
  | cons g0 rest ih =>
    intro acc rows h r hr
    obtain ⟨k, pdgid⟩ := g0
    simp only [rowsAux] at h
    cases hm : forced_mass_mev c pdgid with
    | error e =>
      rw [hm] at h
      cases e with
      | valueError => exact ih acc rows h r hr
      | notFound => simp at h
    | ok d =>
      rw [hm] at h
      cases hcp : c.from_pdgid pdgid with
      | none =>
        rw [hcp] at h
        simp at h
      | some p =>
        rw [hcp] at h
        exact ih _ rows h r (List.mem_append.mpr (Or.inl hr))

theorem rowsAux_mem (c : Catalog) (gs : List (Nat × Int)) :
    ∀ acc rows, rowsAux c gs acc = .ok rows →
      ∀ r ∈ rows, r ∈ acc ∨ ∃ g ∈ gs, RowSpec c g r := by
  induction gs with
  | nil =>
    intro acc rows h r hr
    left
    simp only [rowsAux, Except.ok.injEq] at h
    rwa [h]
  | cons g0 rest ih =>
    intro acc rows h r hr
    obtain ⟨k, pdgid⟩ := g0
    simp only [rowsAux] at h
    cases hm : forced_mass_mev c pdgid with
    | error e =>
      rw [hm] at h
      cases e with
      | valueError =>
        rcases ih acc rows h r hr with hin | ⟨g', hg', hs⟩
        · exact Or.inl hin
        · exact Or.inr ⟨g', List.mem_cons_of_mem _ hg', hs⟩
      | notFound => simp at h
    | ok d =>
      rw [hm] at h
      cases hcp : c.from_pdgid pdgid with
      | none =>
        rw [hcp] at h
        simp at h
      | some p =>
        rw [hcp] at h
        rcases ih _ rows h r hr with hin | ⟨g', hg', hs⟩
        · rcases List.mem_append.mp hin with hin | hin
          · exact Or.inl hin
          · right
            refine ⟨(k, pdgid), List.mem_cons_self _ _, ?_⟩
            rw [List.mem_singleton.mp hin]
            exact ⟨rfl, hm, rfl, p, hcp, rfl⟩
        · exact Or.inr ⟨g', List.mem_cons_of_mem _ hg', hs⟩

theorem rowsAux_complete (c : Catalog) (gs : List (Nat × Int)) :
    ∀ acc rows, rowsAux c gs acc = .ok rows →
      ∀ g ∈ gs, ∀ d, forced_mass_mev c g.2 = .ok d →
        ∃ r ∈ rows, r.pdgid = g.2 ∧ r.m_mev = d ∧ r.m_kg = d.mul MEV_TO_KG := by
  induction gs with
  | nil =>
    intro acc rows _ g hg
    exact absurd hg (List.not_mem_nil _)
  | cons g0 rest ih =>
    intro acc rows h g hg d hd
    obtain ⟨k, pdgid⟩ := g0
    simp only [rowsAux] at h
    rcases List.mem_cons.mp hg with hg | hg
    · subst hg
      rw [show forced_mass_mev c pdgid = .ok d from hd] at h
      cases hcp : c.from_pdgid pdgid with
      | none =>
        rw [hcp] at h
        simp at h
      | some p =>
        rw [hcp] at h
        have hmem := rowsAux_acc_sub c rest _ rows h
          ⟨pdgid, d.mul MEV_TO_KG, rowName pdgid p, d⟩ (by simp)
        exact ⟨_, hmem, rfl, rfl, rfl⟩
    · cases hm : forced_mass_mev c pdgid with
      | error e =>
        rw [hm] at h
        cases e with
        | valueError => exact ih acc rows h g hg d hd
        | notFound => simp at h
      | ok d0 =>
        rw [hm] at h
        cases hcp : c.from_pdgid pdgid with
        | none =>
          rw [hcp] at h
          simp at h
        | some p =>
          rw [hcp] at h
          exact ih _ rows h g hg d hd

theorem rowsAux_keys_sublist (c : Catalog) (gs : List (Nat × Int)) :
    ∀ acc rows, (∀ g ∈ gs, g.2.natAbs = g.1) → rowsAux c gs acc = .ok rows →
      ∃ t, rows = acc ++ t
        ∧ (t.map (fun r => r.pdgid.natAbs)).Sublist (gs.map Prod.fst) := by
  induction gs with
  | nil =>
    intro acc rows _ h
    simp only [rowsAux, Except.ok.injEq] at h
    exact ⟨[], by simp [← h], by simp⟩
  | cons g0 rest ih =>
    intro acc rows hkeys h
    obtain ⟨k, pdgid⟩ := g0
    have hkeys' : ∀ g ∈ rest, g.2.natAbs = g.1 :=
      fun g hg => hkeys g (List.mem_cons_of_mem _ hg)
    have hk0 : pdgid.natAbs = k := hkeys (k, pdgid) (List.mem_cons_self _ _)
    simp only [rowsAux] at h
    cases hm : forced_mass_mev c pdgid with
    | error e =>
      rw [hm] at h
      cases e with
      | valueError =>
        rcases ih acc rows hkeys' h with ⟨t, ht, hsub⟩
        exact ⟨t, ht, hsub.cons _⟩
      | notFound => simp at h
    | ok d =>
      rw [hm] at h
      cases hcp : c.from_pdgid pdgid with
      | none =>
        rw [hcp] at h
        simp at h
      | some p =>
        rw [hcp] at h
        rcases ih _ rows hkeys' h with ⟨t, ht, hsub⟩
        refine ⟨⟨pdgid, d.mul MEV_TO_KG, rowName pdgid p, d⟩ :: t, by simpa using ht, ?_⟩
        simp only [List.map_cons]
        rw [hk0]
        exact hsub.cons₂ _

theorem rowsAux_ok (c : Catalog) (gs : List (Nat × Int)) :
    ∀ acc, (∀ g ∈ gs, (c.from_pdgid g.2).isSome = true) →
      ∃ rows, rowsAux c gs acc = .ok rows := by
  induction gs with
  | nil =>
    intro acc _
    exact ⟨acc, rfl⟩
  | cons g0 rest ih =>
    intro acc hgs
    obtain ⟨k, pdgid⟩ := g0
    have hp : (c.from_pdgid pdgid).isSome = true := hgs (k, pdgid) (List.mem_cons_self _ _)
    have hrest : ∀ g ∈ rest, (c.from_pdgid g.2).isSome = true :=
      fun g hg => hgs g (List.mem_cons_of_mem _ hg)
    obtain ⟨p, hcp⟩ := Option.isSome_iff_exists.mp hp
    simp only [rowsAux]
    cases hm : forced_mass_mev c pdgid with
    | error e =>
      cases e with
      | valueError => exact ih acc hrest
      | notFound =>
        exfalso
        unfold forced_mass_mev at hm
        by_cases hforced : pdgid.natAbs ∈ forcedZeroIds
        · rw [if_pos hforced] at hm
          simp at hm
        · rw [if_neg hforced, hcp] at hm
          cases hpm : p.mass <;> simp [hpm] at hm
    | ok d =>
      rw [hcp]
      exact ih _ hrest

theorem mkRows_ok (c : Catalog) : ∃ rows, mkRows c = .ok rows :=
  rowsAux_ok c (sortedGroups c) [] (fun g hg => (sortedGroups_good c g hg).2.1)

theorem mkRows_mem (c : Catalog) (rows : List Row) (h : mkRows c = .ok rows)
    (r : Row) (hr : r ∈ rows) : ∃ g ∈ sortedGroups c, RowSpec c g r := by
  rcases rowsAux_mem c (sortedGroups c) [] rows h r hr with hin | hg
  · exact absurd hin (List.not_mem_nil _)
  · exact hg

/-! ## Key ordering of the sorted groups and the rows -/

theorem sortedGroups_keys_le (c : Catalog) :
    ((sortedGroups c).map Prod.fst).Pairwise (· ≤ ·) :=
  List.pairwise_map.mpr (List.sorted_insertionSort keyLe (absid_to_pdgid c))

theorem sortedGroups_keys_lt (c : Catalog) :
    ((sortedGroups c).map Prod.fst).Pairwise (· < ·) :=
  ((sortedGroups_keys_le c).and (sortedGroups_keys_nodup c)).imp
    (fun h => lt_of_le_of_ne h.1 h.2)

theorem sortedGroups_key_inj (c : Catalog) {a : Nat} {x y : Int}
    (hx : (a, x) ∈ sortedGroups c) (hy : (a, y) ∈ sortedGroups c) : x = y :=
  congrArg Prod.snd (List.inj_on_of_nodup_map (sortedGroups_keys_nodup c) hx hy rfl)

theorem mkRows_keys_lt (c : Catalog) (rows : List Row) (h : mkRows c = .ok rows) :
    (rows.map (fun r => r.pdgid.natAbs)).Pairwise (· < ·) := by
  rcases rowsAux_keys_sublist c (sortedGroups c) [] rows
      (fun g hg => (sortedGroups_good c g hg).1) h with ⟨t, ht, hsub⟩
  rw [show rows = t by simpa using ht]
  exact List.Pairwise.sublist hsub (sortedGroups_keys_lt c)

/-! ## Formatting and mass-resolution helper lemmas -/

theorem padLeft_length (s : String) (w : Nat) : (padLeft s w).length = max w s.length := by
  unfold padLeft
  rw [String.length_append]
  simp only [String.length_mk, List.length_replicate]
  omega

theorem padRight_length (s : String) (w : Nat) : (padRight s w).length = max w s.length := by
  unfold padRight
  rw [String.length_append]
  simp only [String.length_mk, List.length_replicate]
  omega

theorem fmt_e10_ne_zero_literal (d : Dec) (h : d.m ≠ 0) : fmt_e10 d ≠ "0.0" := by
  have he : 'e' ∈ (fmt_e10 d).data := by
    unfold fmt_e10
    rw [if_neg h]
    simp only [String.data_append]
    refine List.mem_append.mpr (Or.inl (List.mem_append.mpr (Or.inr ?_)))
    exact List.mem_singleton.mpr rfl
  intro heq
  rw [heq] at he
  exact absurd he (by decide)

theorem m_kg_str_eq_zero_iff (d : Dec) : m_kg_str d = "0.0" ↔ d.toRat = 0 := by
  unfold m_kg_str
  by_cases h : d.m = 0
  · rw [if_neg (not_not_intro h)]
    simp [Dec.toRat_eq_zero, h]
  · rw [if_pos h]
    exact iff_of_false (fmt_e10_ne_zero_literal d h)
      (fun hz => h ((Dec.toRat_eq_zero d).mp hz))

theorem Dec.toRat_zero : Dec.zero.toRat = 0 := by
  simp [Dec.zero, Dec.toRat]

theorem forced_mass_of_forced (c : Catalog) (pdgid : Int)
    (h : pdgid.natAbs ∈ forcedZeroIds) : forced_mass_mev c pdgid = .ok Dec.zero := by
  unfold forced_mass_mev
  rw [if_pos h]

theorem forced_mass_of_nonforced (c : Catalog) (pdgid : Int) (d : Dec)
    (hf : pdgid.natAbs ∉ forcedZeroIds) (h : forced_mass_mev c pdgid = .ok d) :
    ∃ p, c.from_pdgid pdgid = some p ∧ p.mass = .val d := by
  unfold forced_mass_mev at h
  rw [if_neg hf] at h
  cases hcp : c.from_pdgid pdgid with
  | none =>
    rw [hcp] at h
    simp at h
  | some p =>
    rw [hcp] at h
    cases hpm : p.mass <;> simp [hpm] at h
    exact ⟨p, rfl, by rw [hpm, h]⟩

/-! ## Claim theorems -/

/-- C1: every output row whose absolute identifier lies in {12, 14, 16, 22}
has resolved mass exactly 0 — whatever mass the catalog holds for that
identifier, since the catalog is universally quantified — and its written
mass field is the literal string "0.0". -/
theorem forcedZero_rows_have_zero_mass (c : Catalog) (rows : List Row)
    (h : mkRows c = .ok rows) (r : Row) (hr : r ∈ rows)
    (hf : r.pdgid.natAbs ∈ forcedZeroIds) :
    r.m_mev = Dec.zero ∧ r.m_kg.toRat = 0 ∧ m_kg_str r.m_kg = "0.0" := by
  obtain ⟨g, hg, hpg, hfor, hkg, -⟩ := mkRows_mem c rows h r hr
  rw [hpg] at hf
  rw [forced_mass_of_forced c g.2 hf] at hfor
  have hmev : r.m_mev = Dec.zero := by simpa using hfor.symm
  have h0 : r.m_kg.toRat = 0 := by
    rw [hkg, hmev, Dec.toRat_mul, Dec.toRat_zero, zero_mul]
  exact ⟨hmev, h0, (m_kg_str_eq_zero_iff _).mpr h0⟩

/-- C2: every output row outside the forced-zero set carries exactly the
catalog mass of its representative identifier, and its kilogram mass is that
catalog mass multiplied by the constant 1.78266192e-30 (exactly, in the
exact-decimal model of the script's floats). -/
theorem nonforced_rows_unit_conversion (c : Catalog) (rows : List Row)
    (h : mkRows c = .ok rows) (r : Row) (hr : r ∈ rows)
    (hf : r.pdgid.natAbs ∉ forcedZeroIds) :
    ∃ p, c.from_pdgid r.pdgid = some p ∧ p.mass = .val r.m_mev
      ∧ r.m_kg = r.m_mev.mul MEV_TO_KG
      ∧ r.m_kg.toRat = r.m_mev.toRat * (1.78266192e-30 : ℚ) := by
  obtain ⟨g, hg, hpg, hfor, hkg, -⟩ := mkRows_mem c rows h r hr
  rw [hpg] at hf
  obtain ⟨p, hp, hpm⟩ := forced_mass_of_nonforced c g.2 r.m_mev hf hfor
  refine ⟨p, by rw [hpg]; exact hp, hpm, hkg, ?_⟩
  rw [hkg, Dec.toRat_mul, MEV_TO_KG_toRat]

/-- C3: no output row has an absolute identifier in the quark set {1,..,6}
or at least 1,000,000,000 (nucleus/ion codes); such records are filtered out
before grouping and never contribute a row. -/
theorem rows_exclude_quarks_and_nuclei (c : Catalog) (rows : List Row)
    (h : mkRows c = .ok rows) (r : Row) (hr : r ∈ rows) :
    r.pdgid.natAbs ∉ quarkIds ∧ r.pdgid.natAbs < 1000000000 := by
  obtain ⟨g, hg, hpg, -⟩ := mkRows_mem c rows h r hr
  have hgood := sortedGroups_good c g hg
  rw [hpg, hgood.1]
  exact ⟨hgood.2.2.1, hgood.2.2.2⟩

/-- C4: over the full output, the absolute identifier values of the rows are
pairwise distinct (each absolute-identifier group contributes at most one
row) and the rows appear in strictly ascending order of absolute
identifier. -/
theorem rows_sorted_and_unique (c : Catalog) (rows : List Row)
    (h : mkRows c = .ok rows) :
    (rows.map (fun r => r.pdgid.natAbs)).Nodup
      ∧ (rows.map (fun r => r.pdgid.natAbs)).Pairwise (· < ·) := by
  have hlt := mkRows_keys_lt c rows h
  exact ⟨hlt.imp (fun hab => Nat.ne_of_lt hab), hlt⟩

/-- C5: the representative of an absolute-identifier group is fixed by the
first surviving record of that group in catalog order (`p`, the first record
of the filtered stream whose absolute identifier is `a`): it is the positive
identifier `a` when the catalog lookup of the positive form succeeds, and
otherwise the signed identifier of that first record.  Records seen later
with the same absolute identifier cannot change the stored representative,
since the result depends only on the first match. -/
theorem representative_fixed_by_first_surviving_record (c : Catalog) (a : Nat)
    (p : PRecord)
    (h : (c.records.filter survives).find? (fun q => q.pdgid.natAbs == a) = some p) :
    lookupGroup c a
      = some (if (c.from_pdgid (a : Int)).isSome then (a : Int) else p.pdgid) := by
  unfold lookupGroup absid_to_pdgid
  rw [buildGroupsAux_first c a p c.records [] h rfl]
  rfl

/-- C6: a group outside the forced-zero set whose catalog mass field is
absent or NaN fails mass resolution with the caught `ValueError` only
(non-fatal): the computation still succeeds, no row with that absolute
identifier is written, and every row that is written comes from a different
group through the ordinary row construction. -/
theorem unresolvable_mass_group_silently_dropped (c : Catalog) (a : Nat)
    (pdgid : Int) (p : PRecord)
    (hg : (a, pdgid) ∈ sortedGroups c) (hf : a ∉ forcedZeroIds)
    (hp : c.from_pdgid pdgid = some p) (hm : p.mass = .absent ∨ p.mass = .nan) :
    forced_mass_mev c pdgid = .error .valueError
      ∧ ∃ rows, mkRows c = .ok rows
          ∧ (∀ r ∈ rows, r.pdgid.natAbs ≠ a)
          ∧ (∀ r ∈ rows, ∃ g ∈ sortedGroups c, g.1 ≠ a ∧ RowSpec c g r) := by
  have hna : pdgid.natAbs = a := (sortedGroups_good c (a, pdgid) hg).1
  have herr : forced_mass_mev c pdgid = .error .valueError := by
    unfold forced_mass_mev
    rw [if_neg (by rw [hna]; exact hf), hp]
    rcases hm with hm | hm <;> simp [hm]
  have hkey : ∀ g ∈ sortedGroups c, g.1 = a → g.2 = pdgid := by
    intro g hgmem hga
    refine sortedGroups_key_inj c (a := a) ?_ hg
    rw [← hga]
    exact hgmem
  obtain ⟨rows, hrows⟩ := mkRows_ok c
  have hdrop : ∀ g ∈ sortedGroups c, ∀ r : Row, RowSpec c g r → g.1 ≠ a := by
    intro g hgmem r hspec hga
    have h2 : g.2 = pdgid := hkey g hgmem hga
    have := hspec.2.1
    rw [h2, herr] at this
    exact Except.noConfusion this
  refine ⟨herr, rows, hrows, ?_, ?_⟩
  · intro r hr hra
    obtain ⟨g, hgmem, hspec⟩ := mkRows_mem c rows hrows r hr
    refine hdrop g hgmem r hspec ?_
    rw [← (sortedGroups_good c g hgmem).1, ← hspec.1, hra]
  · intro r hr
    obtain ⟨g, hgmem, hspec⟩ := mkRows_mem c rows hrows r hr
    exact ⟨g, hgmem, hdrop g hgmem r hspec, hspec⟩

/-- C7: when the particle-data dependency is unavailable the program's whole
effect trace is the single instructional `SystemExit`; in particular no
directory is created and no file is written, for any catalog, any prior
state of the data directory and any revision-hash outcome. -/
theorem missing_dependency_exits_before_any_output (dirExists : Bool)
    (c : Catalog) (gitHash : Option String) :
    runProgram false dirExists c gitHash = [.exitErr installMsg]
      ∧ ∀ eff ∈ runProgram false dirExists c gitHash,
          eff.touchesFilesystem = false := by
  refine ⟨rfl, ?_⟩
  intro eff heff
  rw [show runProgram false dirExists c gitHash = [.exitErr installMsg] from rfl] at heff
  rw [List.mem_singleton.mp heff]
  rfl

/-- C8: every payload line has the exact shape — identifier right-justified
in a 6-character field, one space, mass-in-kilograms string left-justified in
an 18-character field, four spaces, `"# "`, the display name, and in
parentheses the original MeV mass rendered to 6 significant digits with the
`" MeV/c^2"` suffix — and the name is the one the catalog provides for the
representative identifier, or the synthesized `PDG<id>` string when the
catalog provides none (`rowName`). -/
theorem output_line_exact_shape (c : Catalog) (rows : List Row)
    (h : mkRows c = .ok rows) (r : Row) (hr : r ∈ rows) :
    (∃ p, c.from_pdgid r.pdgid = some p ∧ r.name = rowName r.pdgid p)
      ∧ formatLine r
          = padLeft (toString r.pdgid) 6 ++ " " ++ padRight (m_kg_str r.m_kg) 18
              ++ "    # " ++ r.name ++ " (" ++ fmt_g6 r.m_mev ++ " MeV/c^2)"
      ∧ (padLeft (toString r.pdgid) 6).length = max 6 (toString r.pdgid).length
      ∧ (padRight (m_kg_str r.m_kg) 18).length = max 18 (m_kg_str r.m_kg).length := by
  obtain ⟨g, hg, hpg, -, -, p, hp, hname⟩ := mkRows_mem c rows h r hr
  refine ⟨⟨p, ?_, ?_⟩, rfl, padLeft_length _ _, padRight_length _ _⟩
  · rw [hpg]
    exact hp
  · rw [hpg]
    exact hname

/-- C9: a group whose absolute identifier is in the forced-zero set resolves
to mass 0 without consulting the catalog mass field — the catalog here is
arbitrary, so the mass field of that record may be absent or NaN — and the
group is never dropped: whenever the row computation succeeds it contains a
row for that representative, with zero mass. -/
theorem forced_group_is_never_dropped (c : Catalog) (a : Nat) (pdgid : Int)
    (hg : (a, pdgid) ∈ sortedGroups c) (hf : a ∈ forcedZeroIds) :
    forced_mass_mev c pdgid = .ok Dec.zero
      ∧ ∀ rows, mkRows c = .ok rows →
          ∃ r ∈ rows, r.pdgid = pdgid ∧ r.m_mev = Dec.zero ∧ r.m_kg.toRat = 0 := by
  have hna : pdgid.natAbs = a := (sortedGroups_good c (a, pdgid) hg).1
  have hok : forced_mass_mev c pdgid = .ok Dec.zero := by
    unfold forced_mass_mev
    rw [if_pos (by rw [hna]; exact hf)]
  refine ⟨hok, ?_⟩
  intro rows hrows
  obtain ⟨r, hrmem, hrp, hrm, hrkg⟩ :=
    rowsAux_complete c (sortedGroups c) [] rows hrows (a, pdgid) hg Dec.zero hok
  exact ⟨r, hrmem, hrp, hrm, by rw [hrkg, Dec.toRat_mul, Dec.toRat_zero, zero_mul]⟩

/-- C10: the choice between the literal "0.0" and scientific notation
depends only on whether the computed kilogram mass is the value zero, not on
forced-zero membership: a row outside {12, 14, 16, 22} whose catalog mass is
exactly 0 also gets kilogram mass 0 and the literal "0.0"; and in general
`m_kg_str d = "0.0"` holds exactly when the value of `d` is zero. -/
theorem zero_literal_depends_only_on_zero_value (c : Catalog) (rows : List Row)
    (h : mkRows c = .ok rows) (r : Row) (hr : r ∈ rows)
    (hf : r.pdgid.natAbs ∉ forcedZeroIds) (hz : r.m_mev.toRat = 0) :
    (∃ p, c.from_pdgid r.pdgid = some p ∧ p.mass = .val r.m_mev)
      ∧ r.m_kg.toRat = 0 ∧ m_kg_str r.m_kg = "0.0"
      ∧ ∀ d : Dec, (m_kg_str d = "0.0" ↔ d.toRat = 0) := by
  obtain ⟨g, hg, hpg, hfor, hkg, -⟩ := mkRows_mem c rows h r hr
  have hf' : g.2.natAbs ∉ forcedZeroIds := by rw [← hpg]; exact hf
  obtain ⟨p, hp, hpm⟩ := forced_mass_of_nonforced c g.2 r.m_mev hf' hfor
  have h0 : r.m_kg.toRat = 0 := by rw [hkg, Dec.toRat_mul, hz, zero_mul]
  exact ⟨⟨p, by rw [hpg]; exact hp, hpm⟩, h0, (m_kg_str_eq_zero_iff _).mpr h0,
    fun d => m_kg_str_eq_zero_iff d⟩

/-! ## Concrete witnesses -/

/-- C1 witness catalog: the photon with a non-null catalog mass of 5 MeV. -/
def catC1w : Catalog := ⟨[⟨22, .val ⟨5, 0⟩, some "gamma"⟩]⟩

/-- The single output row of `catC1w`. -/
def rowC1w : Row := ⟨22, ⟨0, -38⟩, "gamma", ⟨0, 0⟩⟩

/-- C1 at a concrete input: identifier 22 with catalog mass 5 MeV still
yields mass value 0 and the literal "0.0". -/
theorem forcedZero_rows_have_zero_mass_witness :
    mkRows catC1w = .ok [rowC1w]
      ∧ rowC1w.pdgid.natAbs ∈ forcedZeroIds
      ∧ (rowC1w.m_mev = Dec.zero ∧ rowC1w.m_kg.toRat = 0
          ∧ m_kg_str rowC1w.m_kg = "0.0") :=
  ⟨rfl, by decide, forcedZero_rows_have_zero_mass catC1w [rowC1w] rfl rowC1w
    (List.mem_singleton.mpr rfl) (by decide)⟩

/-- C2 witness catalog: the electron with catalog mass 0.51099895 MeV. -/
def catC2w : Catalog := ⟨[⟨11, .val ⟨51099895, -8⟩, some "e-"⟩]⟩

/-- The single output row of `catC2w`. -/
def rowC2w : Row := ⟨11, ⟨9109383693249840, -46⟩, "e-", ⟨51099895, -8⟩⟩

/-- C2 at a concrete input: the electron row's kilogram mass is the catalog
MeV mass times 1.78266192e-30. -/
theorem nonforced_rows_unit_conversion_witness :
    mkRows catC2w = .ok [rowC2w]
      ∧ rowC2w.pdgid.natAbs ∉ forcedZeroIds
      ∧ ∃ p, catC2w.from_pdgid rowC2w.pdgid = some p ∧ p.mass = .val rowC2w.m_mev
          ∧ rowC2w.m_kg = rowC2w.m_mev.mul MEV_TO_KG
          ∧ rowC2w.m_kg.toRat = rowC2w.m_mev.toRat * (1.78266192e-30 : ℚ) :=
  ⟨rfl, by decide, nonforced_rows_unit_conversion catC2w [rowC2w] rfl rowC2w
    (List.mem_singleton.mpr rfl) (by decide)⟩

/-- C3 witness catalog: both muon charge states. -/
def catC3w : Catalog :=
  ⟨[⟨-13, .val ⟨1056583755, -7⟩, some "mu+"⟩, ⟨13, .val ⟨1056583755, -7⟩, some "mu-"⟩]⟩

/-- The single output row of `catC3w`. -/
def rowC3w : Row := ⟨13, ⟨188353162532910960, -45⟩, "mu-", ⟨1056583755, -7⟩⟩

/-- C3 at a concrete input: the surviving row is neither a quark nor a
nucleus/ion code. -/
theorem rows_exclude_quarks_and_nuclei_witness :
    mkRows catC3w = .ok [rowC3w]
      ∧ (rowC3w.pdgid.natAbs ∉ quarkIds ∧ rowC3w.pdgid.natAbs < 1000000000) :=
  ⟨rfl, rows_exclude_quarks_and_nuclei catC3w [rowC3w] rfl rowC3w
    (List.mem_singleton.mpr rfl)⟩

/-- C4 witness catalog: a pion and the photon (photon mass absent). -/
def catC4w : Catalog :=
  ⟨[⟨211, .val ⟨13957039, -8⟩, some "pi+"⟩, ⟨22, .absent, some "gamma"⟩]⟩

/-- The two output rows of `catC4w`, in ascending absolute-identifier
order. -/
def rowsC4w : List Row :=
  [⟨22, ⟨0, -38⟩, "gamma", ⟨0, 0⟩⟩,
   ⟨211, ⟨2488068194125488, -46⟩, "pi+", ⟨13957039, -8⟩⟩]

/-- C4 at a concrete input: distinct and ascending absolute identifiers. -/
theorem rows_sorted_and_unique_witness :
    mkRows catC4w = .ok rowsC4w
      ∧ ((rowsC4w.map (fun r => r.pdgid.natAbs)).Nodup
          ∧ (rowsC4w.map (fun r => r.pdgid.natAbs)).Pairwise (· < ·)) :=
  ⟨rfl, rows_sorted_and_unique catC4w rowsC4w rfl⟩

/-- C5 witness catalog: only the antimuon is present, so the positive lookup
fails and the representative falls back to the signed identifier -13. -/
def catC5w : Catalog := ⟨[⟨-13, .val ⟨1056583755, -7⟩, some "mu+"⟩]⟩

/-- The first (only) surviving record of `catC5w` with absolute
identifier 13. -/
def pC5w : PRecord := ⟨-13, .val ⟨1056583755, -7⟩, some "mu+"⟩

/-- C5 at a concrete input: the stored representative for key 13 is the
first-seen signed identifier -13, because the positive form is absent. -/
theorem representative_fixed_by_first_surviving_record_witness :
    (catC5w.records.filter survives).find? (fun q => q.pdgid.natAbs == 13) = some pC5w
      ∧ lookupGroup catC5w 13
          = some (if (catC5w.from_pdgid (13 : Int)).isSome then (13 : Int) else pC5w.pdgid)
      ∧ lookupGroup catC5w 13 = some (-13) :=
  ⟨rfl, representative_fixed_by_first_surviving_record catC5w 13 pC5w rfl, rfl⟩

/-- C6 witness catalog: identifier 17 with a NaN mass plus a healthy pion. -/
def catC6w : Catalog :=
  ⟨[⟨17, .nan, some "X"⟩, ⟨211, .val ⟨13957039, -8⟩, some "pi+"⟩]⟩

/-- The NaN-mass record of `catC6w`. -/
def pC6w : PRecord := ⟨17, .nan, some "X"⟩

/-- C6 at a concrete input: the NaN-mass group 17 is silently dropped while
the pion row survives. -/
theorem unresolvable_mass_group_silently_dropped_witness :
    (17, (17 : Int)) ∈ sortedGroups catC6w
      ∧ (17 : Nat) ∉ forcedZeroIds
      ∧ catC6w.from_pdgid 17 = some pC6w
      ∧ (forced_mass_mev catC6w 17 = .error .valueError
          ∧ ∃ rows, mkRows catC6w = .ok rows
              ∧ (∀ r ∈ rows, r.pdgid.natAbs ≠ 17)
              ∧ (∀ r ∈ rows, ∃ g ∈ sortedGroups catC6w, g.1 ≠ 17 ∧ RowSpec catC6w g r)) :=
  ⟨by decide, by decide, rfl, unresolvable_mass_group_silently_dropped catC6w 17 17 pC6w
    (by decide) (by decide) rfl (Or.inr rfl)⟩

/-- C8 witness catalog: a tau with no display name, so the synthesized
"PDG-15" name is used (the positive form is absent, hence the negative
representative). -/
def catC8w : Catalog := ⟨[⟨-15, .val ⟨177686, -2⟩, none⟩]⟩

/-- The single output row of `catC8w`. -/
def rowC8w : Row := ⟨-15, ⟨31675406591712, -40⟩, "PDG-15", ⟨177686, -2⟩⟩

/-- C8 at a concrete input: the payload line shape and the synthesized
name. -/
theorem output_line_exact_shape_witness :
    mkRows catC8w = .ok [rowC8w]
      ∧ ((∃ p, catC8w.from_pdgid rowC8w.pdgid = some p ∧ rowC8w.name = rowName rowC8w.pdgid p)
          ∧ formatLine rowC8w
              = padLeft (toString rowC8w.pdgid) 6 ++ " " ++ padRight (m_kg_str rowC8w.m_kg) 18
                  ++ "    # " ++ rowC8w.name ++ " (" ++ fmt_g6 rowC8w.m_mev ++ " MeV/c^2)"
          ∧ (padLeft (toString rowC8w.pdgid) 6).length = max 6 (toString rowC8w.pdgid).length
          ∧ (padRight (m_kg_str rowC8w.m_kg) 18).length
              = max 18 (m_kg_str rowC8w.m_kg).length) :=
  ⟨rfl, output_line_exact_shape catC8w [rowC8w] rfl rowC8w (List.mem_singleton.mpr rfl)⟩

/-- C9 witness catalog: the photon with a NaN catalog mass and no name. -/
def catC9w : Catalog := ⟨[⟨22, .nan, none⟩]⟩

/-- C9 at a concrete input: the NaN-mass photon group still resolves to mass
0 and is never dropped. -/
theorem forced_group_is_never_dropped_witness :
    (22, (22 : Int)) ∈ sortedGroups catC9w
      ∧ (22 : Nat) ∈ forcedZeroIds
      ∧ (forced_mass_mev catC9w 22 = .ok Dec.zero
          ∧ ∀ rows, mkRows catC9w = .ok rows →
              ∃ r ∈ rows, r.pdgid = 22 ∧ r.m_mev = Dec.zero ∧ r.m_kg.toRat = 0) :=
  ⟨by decide, by decide, forced_group_is_never_dropped catC9w 22 22 (by decide) (by decide)⟩

/-- C10 witness catalog: identifier 25, outside the forced-zero set, with a
catalog mass of exactly 0 MeV. -/
def catC10w : Catalog := ⟨[⟨25, .val ⟨0, 0⟩, some "h"⟩]⟩

/-- The single output row of `catC10w`. -/
def rowC10w : Row := ⟨25, ⟨0, -38⟩, "h", ⟨0, 0⟩⟩

/-- C10 at a concrete input: a non-forced particle with catalog mass 0 is
also written as the literal "0.0". -/
theorem zero_literal_depends_only_on_zero_value_witness :
    mkRows catC10w = .ok [rowC10w]
      ∧ rowC10w.pdgid.natAbs ∉ forcedZeroIds
      ∧ rowC10w.m_mev.toRat = 0
      ∧ ((∃ p, catC10w.from_pdgid rowC10w.pdgid = some p ∧ p.mass = .val rowC10w.m_mev)
          ∧ rowC10w.m_kg.toRat = 0 ∧ m_kg_str rowC10w.m_kg = "0.0"
          ∧ ∀ d : Dec, (m_kg_str d = "0.0" ↔ d.toRat = 0)) :=
  ⟨rfl, by decide, by simp [Dec.toRat, rowC10w],
    zero_literal_depends_only_on_zero_value catC10w [rowC10w] rfl rowC10w
      (List.mem_singleton.mpr rfl) (by decide) (by simp [Dec.toRat, rowC10w])⟩
